import Mathlib

/-!
# Verification of `scripts/generate_engineering_csv.py`

A shallow embedding of the engineering-data CSV generator.  The Python
script produces four related CSV tables (parts, assemblies, measurements,
supplier relationships) driven by the global `random` module.

Modelling choices:
* Python's global random state is an explicit `RandState`: a pair of
  streams (one of naturals backing `randint`/`choice`, one of rationals in
  `[0,1]` backing `uniform`) together with a consumption counter.  Each
  primitive consumes exactly one stream element, so call order is explicit.
* Python floats are modelled as rationals; `random.uniform a b` is
  `a + (b - a) * u` with `u` the next stream rational clamped to `[0,1]`.
* `datetime` values are integers (seconds); `timedelta(days = d)` is
  `d * 86400` seconds and `timedelta(hours = h)` is `h * 3600` seconds.
  `datetime.now()` is an explicit parameter `now` of the run.
* `random.choice` on an empty sequence raises `IndexError`; fallible code
  returns `Except PyError`.
-/

namespace EngCsv

inductive PyError where
  | indexError
deriving DecidableEq, Repr

/-- Modelled from the spec: section 7 of the specification introduces the
abstract error kinds `InvalidArgument` and `IOFailure` which are not named
in the Python source; this type follows the spec's words. -/
inductive ErrKind where
  | invalidArgument
  | ioFailure
deriving DecidableEq, Repr

/-- Modelled from the spec: section 7 classifies a failure caused by an
empty part set with a nonzero dependent count as `InvalidArgument`; the
`IndexError` raised by `random.choice` at that point realises that kind. -/
def specErrKind : PyError → ErrKind
  | .indexError => .invalidArgument

/-- The two entropy streams backing the `random` module: `ints` feeds
`randint`/`choice` draws, `reals` feeds `uniform` draws. -/
structure RandSource where
  ints : ℕ → ℕ
  reals : ℕ → ℚ

/-- The process-global random state: the source plus how many draws have
been consumed. -/
structure RandState where
  src : RandSource
  idx : ℕ

def RandState.next (s : RandState) : ℕ × RandState :=
  (s.src.ints s.idx, ⟨s.src, s.idx + 1⟩)

def RandState.nextReal (s : RandState) : ℚ × RandState :=
  (s.src.reals s.idx, ⟨s.src, s.idx + 1⟩)

/-- Clamp a stream rational into `[0,1]`, the range of `random.random()`. -/
def unit01 (q : ℚ) : ℚ := max 0 (min 1 q)

/-- Embedding of `random.randint(a, b)`: a uniform integer in `[a, b]`. -/
def randint (a b : ℤ) (s : RandState) : ℤ × RandState :=
  let (n, s1) := s.next
  (a + (n % (b - a + 1).toNat : ℕ), s1)

/-- Embedding of `random.uniform(a, b) = a + (b - a) * random.random()`. -/
def uniform (a b : ℚ) (s : RandState) : ℚ × RandState :=
  let (u, s1) := s.nextReal
  (a + (b - a) * unit01 u, s1)

/-- Embedding of `random.choice(seq)`: a uniformly chosen element; raises `IndexError`
on an empty sequence. -/
def pychoice {α : Type} (l : List α) (s : RandState) : Except PyError (α × RandState) :=
  let (n, s1) := s.next
  if h : l.length = 0 then .error .indexError
  else .ok (l.get ⟨n % l.length, Nat.mod_lt _ (Nat.pos_of_ne_zero h)⟩, s1)

/-! ## Decimal digit strings

Infrastructure for the embedding of Python's number rendering
(`f"{x:.3f}"`, `f"{idx:06d}"`, `str(n)`). -/

/-- Decimal digits of `n`, most significant first, with explicit fuel so
that the recursion is structural. -/
def natDigitsAux : ℕ → ℕ → List Char
  | 0, _ => []
  | fuel + 1, n =>
    if n < 10 then [Nat.digitChar n]
    else natDigitsAux fuel (n / 10) ++ [Nat.digitChar (n % 10)]

/-- Decimal digits of `n`, most significant first (`natDigits 0 = ['0']`). -/
def natDigits (n : ℕ) : List Char := natDigitsAux (n + 1) n

/-- Numeric value of a digit character. -/
def charVal (c : Char) : ℕ := c.toNat - 48

/-- Value of a most-significant-first digit list. -/
def digitsVal : List Char → ℕ
  | [] => 0
  | c :: cs => charVal c * 10 ^ cs.length + digitsVal cs

/-- Left-pad a digit list with zeros to width `k` (Python's `{:0kd}`). -/
def padZeros (k : ℕ) (l : List Char) : List Char :=
  List.replicate (k - l.length) '0' ++ l

/-- Rendering `str(n)` of a natural number. -/
def natRepr (n : ℕ) : String := ⟨natDigits n⟩

/-- Rendering `str(z)` of a Python integer. -/
def intRepr (z : ℤ) : String :=
  if z < 0 then "-" ++ natRepr (-z).toNat else natRepr z.toNat

/-- Split a character list at the first '.' (before, after). -/
def splitDot : List Char → List Char × List Char
  | [] => ([], [])
  | c :: cs =>
    if c = '.' then ([], cs)
    else
      let (a, b) := splitDot cs
      (c :: a, b)

/-- Parse a non-negative decimal numeral, optionally with a fractional
part, back into a rational (the reading-back direction of the spec's
round-trip property). -/
def parseDecimal (s : String) : Option ℚ :=
  let (i, f) := splitDot s.data
  if i.all Char.isDigit && f.all Char.isDigit then
    some ((digitsVal i : ℚ) + (digitsVal f : ℚ) / 10 ^ f.length)
  else none

/-- Python's fixed-point rendering `f"{q:.prec f}"` for a non-negative
value: round to `prec` decimal places and print with exactly `prec`
fractional digits. -/
def formatFixed (prec : ℕ) (q : ℚ) : String :=
  let m := (⌊q * 10 ^ prec + 1 / 2⌋).toNat
  ⟨natDigits (m / 10 ^ prec) ++ '.' :: padZeros prec (natDigits (m % 10 ^ prec))⟩

/-- Gregorian civil date from a day number relative to 1970-01-01
(year, month, day). -/
def civilFromDays (z : ℤ) : ℤ × ℕ × ℕ :=
  let w := z + 719468
  let era := w.fdiv 146097
  let doe := (w.fmod 146097).toNat
  let yoe := (doe - doe / 1460 + doe / 36524 - doe / 146096) / 365
  let doy := doe - (365 * yoe + yoe / 4 - yoe / 100)
  let mp := (5 * doy + 2) / 153
  let d := doy - (153 * mp + 2) / 5 + 1
  let m := if mp < 10 then mp + 3 else mp - 9
  (era * 400 + yoe + (if m ≤ 2 then 1 else 0), m, d)

/-- Zero-padded two-digit field of a timestamp. -/
def pad2 (n : ℕ) : List Char := padZeros 2 (natDigits n)

/-- Rendering of the year field of a timestamp. -/
def yearChars (y : ℤ) : List Char :=
  if y < 0 then '-' :: padZeros 4 (natDigits (-y).toNat)
  else padZeros 4 (natDigits y.toNat)

/-- Embedding of `datetime.isoformat` with second precision on a naive datetime held as
integer seconds: `YYYY-MM-DDTHH:MM:SS`. -/
def isoformatSeconds (t : ℤ) : String :=
  let days := t.fdiv 86400
  let sod := (t.fmod 86400).toNat
  let c := civilFromDays days
  ⟨yearChars c.1 ++ '-' :: pad2 c.2.1 ++ '-' :: pad2 c.2.2 ++
    'T' :: pad2 (sod / 3600) ++ ':' :: pad2 (sod % 3600 / 60) ++ ':' :: pad2 (sod % 60)⟩

/-- Python's `f"PRE-{idx:06d}"` identifier format. -/
def idTag (pre : String) (n : ℕ) : String := pre ++ ⟨padZeros 6 (natDigits n)⟩

/-! ## Lookup tables and record types of the script -/

def MATERIALS : List String :=
  ["Aluminum", "Steel", "Titanium", "Carbon Fiber", "ABS Plastic", "Ceramic"]

def OPERATORS : List String :=
  ["Alice", "Bob", "Charlie", "Dina", "Evelyn", "Frank"]

def ASSEMBLY_STEPS : List String :=
  ["Fasten bolts", "Apply adhesive", "Install wiring", "Torque calibration",
    "Visual inspection"]

def MEASUREMENT_TYPES : List (String × String) :=
  [("Length", "mm"), ("Mass", "kg"), ("Temperature", "C"), ("Pressure", "kPa"),
    ("Voltage", "V")]

def SUPPLIERS : List String :=
  ["Acme Components", "Orbital Supplies", "Precision Parts Co.",
    "Rocketry Wholesale", "Titan Manufacturing"]

structure Part where
  part_id : String
  part_number : String
  description : String
  weight_kg : ℚ
  material : String
  created_at : ℤ

structure Assembly where
  assembly_id : String
  part_id : String
  assembly_step : String
  torque_nm : ℚ
  operator : String
  timestamp : ℤ

structure Measurement where
  measurement_id : String
  part_id : String
  measurement_type : String
  value : ℚ
  units : String
  measured_at : ℤ

structure SupplierRelationship where
  supplier_part_id : String
  part_id : String
  supplier_name : String
  cost_usd : ℚ
  lead_time_days : ℤ
  qualified_on : ℤ

def Part.to_row (p : Part) : List String :=
  [p.part_id, p.part_number, p.description, formatFixed 3 p.weight_kg,
    p.material, isoformatSeconds p.created_at]

def Assembly.to_row (a : Assembly) : List String :=
  [a.assembly_id, a.part_id, a.assembly_step, formatFixed 2 a.torque_nm,
    a.operator, isoformatSeconds a.timestamp]

def Measurement.to_row (m : Measurement) : List String :=
  [m.measurement_id, m.part_id, m.measurement_type, formatFixed 3 m.value,
    m.units, isoformatSeconds m.measured_at]

def SupplierRelationship.to_row (r : SupplierRelationship) : List String :=
  [r.supplier_part_id, r.part_id, r.supplier_name, formatFixed 2 r.cost_usd,
    intRepr r.lead_time_days, isoformatSeconds r.qualified_on]

/-! ## Record generators

The body of each `for idx in range(1, count + 1)` loop is embedded as a
structural recursion over the list of indices `[1, ..., count]`; a
negative Python count makes `range` empty. -/

def generate_partsAux (now : ℤ) : List ℕ → RandState → Except PyError (List Part × RandState)
  | [], s => .ok ([], s)
  | idx :: rest, s =>
    let (pn, s) := randint 10000 99999 s
    let (w, s) := uniform (1 / 10) 75 s
    match pychoice MATERIALS s with
    | .error e => .error e
    | .ok (mat, s) =>
      let (d, s) := randint 0 365 s
      let p : Part := ⟨idTag "PART-" idx, "PN-" ++ intRepr pn,
        "Component " ++ natRepr idx, w, mat, now - 365 * 86400 + d * 86400⟩
      match generate_partsAux now rest s with
      | .error e => .error e
      | .ok (ps, s) => .ok (p :: ps, s)

/-- Embedding of `generate_parts(count)`; `base_date = datetime.now() - timedelta(days=365)`
is `now - 365 * 86400`. -/
def generate_parts (count : ℤ) (now : ℤ) (s : RandState) :
    Except PyError (List Part × RandState) :=
  generate_partsAux now ((List.range count.toNat).map (· + 1)) s

def generate_assembliesAux (parts : List Part) :
    List ℕ → RandState → Except PyError (List Assembly × RandState)
  | [], s => .ok ([], s)
  | idx :: rest, s =>
    match pychoice parts s with
    | .error e => .error e
    | .ok (part, s) =>
      match pychoice ASSEMBLY_STEPS s with
      | .error e => .error e
      | .ok (step, s) =>
        let (tq, s) := uniform 1 150 s
        match pychoice OPERATORS s with
        | .error e => .error e
        | .ok (op, s) =>
          let (h, s) := randint 1 500 s
          let a : Assembly := ⟨idTag "ASM-" idx, part.part_id, step, tq, op,
            part.created_at + h * 3600⟩
          match generate_assembliesAux parts rest s with
          | .error e => .error e
          | .ok (as_, s) => .ok (a :: as_, s)

/-- Embedding of `generate_assemblies(parts, count)`. -/
def generate_assemblies (parts : List Part) (count : ℤ) (s : RandState) :
    Except PyError (List Assembly × RandState) :=
  generate_assembliesAux parts ((List.range count.toNat).map (· + 1)) s

def generate_measurementsAux (parts : List Part) :
    List ℕ → RandState → Except PyError (List Measurement × RandState)
  | [], s => .ok ([], s)
  | idx :: rest, s =>
    match pychoice parts s with
    | .error e => .error e
    | .ok (part, s) =>
      match pychoice MEASUREMENT_TYPES s with
      | .error e => .error e
      | .ok (tu, s) =>
        let (v, s) := uniform 0 1000 s
        let (h, s) := randint 2 720 s
        let m : Measurement := ⟨idTag "MEAS-" idx, part.part_id, tu.1, v, tu.2,
          part.created_at + h * 3600⟩
        match generate_measurementsAux parts rest s with
        | .error e => .error e
        | .ok (ms, s) => .ok (m :: ms, s)

/-- Embedding of `generate_measurements(parts, count)`. -/
def generate_measurements (parts : List Part) (count : ℤ) (s : RandState) :
    Except PyError (List Measurement × RandState) :=
  generate_measurementsAux parts ((List.range count.toNat).map (· + 1)) s

def generate_supplier_relationshipsAux (parts : List Part) :
    List ℕ → RandState → Except PyError (List SupplierRelationship × RandState)
  | [], s => .ok ([], s)
  | idx :: rest, s =>
    match pychoice parts s with
    | .error e => .error e
    | .ok (part, s) =>
      match pychoice SUPPLIERS s with
      | .error e => .error e
      | .ok (name, s) =>
        let (c, s) := uniform 25 10000 s
        let (lead, s) := randint 1 120 s
        let (d, s) := randint 0 60 s
        let r : SupplierRelationship := ⟨idTag "SUP-" idx, part.part_id, name, c,
          lead, part.created_at - d * 86400⟩
        match generate_supplier_relationshipsAux parts rest s with
        | .error e => .error e
        | .ok (rs, s) => .ok (r :: rs, s)

/-- Embedding of `generate_supplier_relationships(parts, count)`. -/
def generate_supplier_relationships (parts : List Part) (count : ℤ) (s : RandState) :
    Except PyError (List SupplierRelationship × RandState) :=
  generate_supplier_relationshipsAux parts ((List.range count.toNat).map (· + 1)) s

/-! ## CSV writer and orchestrator -/

/-- Embedding of the `csv.writer` minimal quoting: quote a cell containing the delimiter,
the quote character or a line break, doubling inner quotes. -/
def csvQuote (s : String) : String :=
  if s.data.any (fun c => c = ',' ∨ c = '"' ∨ c = '\n' ∨ c = '\r') then
    "\"" ++ ⟨s.data.flatMap (fun c => if c = '"' then ['"', '"'] else [c])⟩ ++ "\""
  else s

/-- One serialized CSV record (default `lineterminator` is CRLF). -/
def csvLine (row : List String) : String :=
  String.intercalate "," (row.map csvQuote) ++ "\r\n"

/-- Embedding of `write_csv`: the full byte content written for a header plus rows. -/
def csvSerialize (rows : List (List String)) : String :=
  String.join (rows.map csvLine)

def partsHeader : List String :=
  ["part_id", "part_number", "description", "weight_kg", "material", "created_at"]

def assembliesHeader : List String :=
  ["assembly_id", "part_id", "assembly_step", "torque_nm", "operator", "timestamp"]

def measurementsHeader : List String :=
  ["measurement_id", "part_id", "measurement_type", "value", "units", "measured_at"]

def suppliersHeader : List String :=
  ["supplier_part_id", "part_id", "supplier_name", "cost_usd", "lead_time_days",
    "qualified_on"]

/-- The four row counts given by the `parts`, `assemblies`,
`measurements` and `suppliers` CLI flags. -/
structure Config where
  parts : ℤ
  assemblies : ℤ
  measurements : ℤ
  suppliers : ℤ

/-- Default counts of the CLI flags. -/
def defaultConfig : Config := ⟨100, 200, 300, 50⟩

/-- The orchestrator state threaded through `main`: the random state, the
`parts` binding, and the files written so far (name and rows, header
first). -/
structure OrchState where
  rand : RandState
  parts : List Part
  files : List (String × List (List String))

def stepParts (count now : ℤ) (σ : OrchState) : Except PyError OrchState :=
  match generate_parts count now σ.rand with
  | .error e => .error e
  | .ok (ps, r) =>
    .ok ⟨r, ps, σ.files ++ [("parts.csv", partsHeader :: ps.map Part.to_row)]⟩

def stepAssemblies (count : ℤ) (σ : OrchState) : Except PyError OrchState :=
  match generate_assemblies σ.parts count σ.rand with
  | .error e => .error e
  | .ok (as_, r) =>
    .ok ⟨r, σ.parts, σ.files ++ [("assemblies.csv", assembliesHeader :: as_.map Assembly.to_row)]⟩

def stepMeasurements (count : ℤ) (σ : OrchState) : Except PyError OrchState :=
  match generate_measurements σ.parts count σ.rand with
  | .error e => .error e
  | .ok (ms, r) =>
    .ok ⟨r, σ.parts, σ.files ++ [("measurements.csv", measurementsHeader :: ms.map Measurement.to_row)]⟩

def stepSuppliers (count : ℤ) (σ : OrchState) : Except PyError OrchState :=
  match generate_supplier_relationships σ.parts count σ.rand with
  | .error e => .error e
  | .ok (rs, r) =>
    .ok ⟨r, σ.parts,
      σ.files ++ [("supplier_relationships.csv", suppliersHeader :: rs.map SupplierRelationship.to_row)]⟩

/-- Run steps in order, stopping at the first error; files already
written stay written (no rollback). -/
def runSteps : List (OrchState → Except PyError OrchState) → OrchState →
    OrchState × Option PyError
  | [], σ => (σ, none)
  | f :: fs, σ =>
    match f σ with
    | .error e => (σ, some e)
    | .ok σnext => runSteps fs σnext

/-- Embedding of `main()`: seed the random source, generate the four tables in
dependency order, write the four files.  The seed is abstracted by the
`src` streams; `now` is the value of `datetime.now()`. -/
def mainFiles (cfg : Config) (src : RandSource) (now : ℤ) :
    OrchState × Option PyError :=
  runSteps
    [stepParts cfg.parts now, stepAssemblies cfg.assemblies,
      stepMeasurements cfg.measurements, stepSuppliers cfg.suppliers]
    ⟨⟨src, 0⟩, [], []⟩

/-- The byte contents of the files a run writes, in write order. -/
def mainRun (cfg : Config) (src : RandSource) (now : ℤ) :
    List (String × String) × Option PyError :=
  let (σ, e) := mainFiles cfg src now
  (σ.files.map (fun f => (f.1, csvSerialize f.2)), e)

/-! ## Properties of the rendered numerals -/

/-- The string `s` is rendered with exactly `n` decimal places: a final dot followed
by exactly `n` digits. -/
def hasExactlyDecimals (n : ℕ) (s : String) : Prop :=
  ∃ a b, s.data = a ++ '.' :: b ∧ b.length = n ∧ (∀ c ∈ b, c.isDigit = true) ∧
    '.' ∉ a

/-- The string `s` is a plain decimal integer: non-empty, digits only (no dot and no
sign). -/
def isPlainNat (s : String) : Prop :=
  s.data ≠ [] ∧ ∀ c ∈ s.data, c.isDigit = true

/-! ## Dependence on the wall clock

Everything a run produces is a pure function of the seed streams and of
`datetime.now()`; changing the clock shifts every generated timestamp by
the same amount and changes nothing else. -/

def shiftPart (δ : ℤ) (p : Part) : Part := { p with created_at := p.created_at + δ }

def shiftAssembly (δ : ℤ) (a : Assembly) : Assembly :=
  { a with timestamp := a.timestamp + δ }

def shiftMeasurement (δ : ℤ) (m : Measurement) : Measurement :=
  { m with measured_at := m.measured_at + δ }

def shiftSupplier (δ : ℤ) (r : SupplierRelationship) : SupplierRelationship :=
  { r with qualified_on := r.qualified_on + δ }

/-! ## Concrete witness inputs -/

/-- A concrete seed source: both streams constantly zero. -/
def wSrc : RandSource := ⟨fun _ => 0, fun _ => 0⟩

def wSt : RandState := ⟨wSrc, 0⟩

def wPart : Part := ⟨"PART-000001", "PN-10000", "Component 1", 1 / 10, "Aluminum", 0⟩

def wOrch : OrchState := ⟨wSt, [wPart], []⟩

def wOrchP : OrchState := ⟨wSt, [], []⟩

def okListOf {α : Type} : Except PyError (List α × RandState) → List α
  | .ok (l, _) => l
  | .error _ => []

def okStateOf {α : Type} (d : RandState) : Except PyError (List α × RandState) → RandState
  | .ok (_, s) => s
  | .error _ => d

def orchOf (d : OrchState) : Except PyError OrchState → OrchState
  | .ok σ => σ
  | .error _ => d

/-! ## Theorems -/

theorem mod10_lt (n : ℕ) : n % 10 < 10 := Nat.mod_lt _ (by norm_num)

theorem charVal_digitChar {n : ℕ} (h : n < 10) : charVal (Nat.digitChar n) = n := by
  interval_cases n <;> rfl

theorem isDigit_digitChar {n : ℕ} (h : n < 10) : (Nat.digitChar n).isDigit = true := by
  interval_cases n <;> rfl

theorem digitsVal_append_singleton (l : List Char) (c : Char) :
    digitsVal (l ++ [c]) = 10 * digitsVal l + charVal c := by
  induction l with
  | nil => simp [digitsVal]
  | cons d l ih =>
    have hlen : (l ++ [c]).length = l.length + 1 := by simp
    simp only [List.cons_append, List.append_eq, digitsVal, ih, hlen]
    ring

theorem digitsVal_natDigitsAux : ∀ fuel n, n < fuel →
    digitsVal (natDigitsAux fuel n) = n := by
  intro fuel
  induction fuel with
  | zero => intro n hn; omega
  | succ fuel ih =>
    intro n hn
    by_cases h10 : n < 10
    · simp only [natDigitsAux, if_pos h10, digitsVal, List.length_nil, pow_zero,
        charVal_digitChar h10]
      omega
    · have hdiv : n / 10 < fuel := by
        have : n / 10 < n := Nat.div_lt_self (by omega) (by omega)
        omega
      simp only [natDigitsAux, if_neg h10, digitsVal_append_singleton, ih _ hdiv,
        charVal_digitChar (mod10_lt n)]
      omega

theorem digitsVal_natDigits (n : ℕ) : digitsVal (natDigits n) = n :=
  digitsVal_natDigitsAux (n + 1) n (Nat.lt_succ_self n)

theorem isDigit_of_mem_natDigitsAux : ∀ fuel n c, c ∈ natDigitsAux fuel n →
    c.isDigit = true := by
  intro fuel
  induction fuel with
  | zero => intro n c hc; simp [natDigitsAux] at hc
  | succ fuel ih =>
    intro n c hc
    by_cases h10 : n < 10
    · simp only [natDigitsAux, if_pos h10, List.mem_singleton] at hc
      exact hc ▸ isDigit_digitChar h10
    · simp only [natDigitsAux, if_neg h10, List.mem_append, List.mem_singleton] at hc
      rcases hc with hc | hc
      · exact ih _ _ hc
      · exact hc ▸ isDigit_digitChar (mod10_lt n)

theorem isDigit_of_mem_natDigits {n : ℕ} {c : Char} (hc : c ∈ natDigits n) :
    c.isDigit = true :=
  isDigit_of_mem_natDigitsAux (n + 1) n c hc

theorem natDigits_ne_nil (n : ℕ) : natDigits n ≠ [] := by
  unfold natDigits natDigitsAux
  by_cases h10 : n < 10 <;> simp [h10]

theorem length_natDigitsAux_le : ∀ fuel n k, 1 ≤ k → n < 10 ^ k →
    (natDigitsAux fuel n).length ≤ k := by
  intro fuel
  induction fuel with
  | zero => intro n k hk _; simp [natDigitsAux]
  | succ fuel ih =>
    intro n k hk hn
    by_cases h10 : n < 10
    · simp only [natDigitsAux, if_pos h10, List.length_singleton]
      omega
    · have hk2 : 2 ≤ k := by
        by_contra hlt
        have : k = 1 := by omega
        subst this
        simp at hn
        omega
      have hdiv : n / 10 < 10 ^ (k - 1) := by
        have h1 : n < 10 * 10 ^ (k - 1) := by
          have : 10 ^ k = 10 ^ (k - 1) * 10 := by
            rw [← pow_succ]
            congr 1
            omega
          omega
        exact Nat.div_lt_of_lt_mul h1
      have := ih (n / 10) (k - 1) (by omega) hdiv
      simp only [natDigitsAux, if_neg h10, List.length_append, List.length_singleton]
      omega

theorem length_natDigits_le {n k : ℕ} (hk : 1 ≤ k) (hn : n < 10 ^ k) :
    (natDigits n).length ≤ k :=
  length_natDigitsAux_le (n + 1) n k hk hn

theorem digitsVal_replicate_zero (z : ℕ) (l : List Char) :
    digitsVal (List.replicate z '0' ++ l) = digitsVal l := by
  induction z with
  | zero => simp
  | succ z ih =>
    have : List.replicate (z + 1) '0' ++ l = '0' :: (List.replicate z '0' ++ l) := by
      simp [List.replicate_succ]
    rw [this]
    simp only [digitsVal, ih]
    have h0 : charVal '0' = 0 := by decide
    simp [h0]

theorem digitsVal_padZeros (k : ℕ) (l : List Char) :
    digitsVal (padZeros k l) = digitsVal l :=
  digitsVal_replicate_zero _ l

theorem length_padZeros {k : ℕ} {l : List Char} (h : l.length ≤ k) :
    (padZeros k l).length = k := by
  simp [padZeros]
  omega

theorem mem_padZeros {k : ℕ} {l : List Char} {c : Char} (hc : c ∈ padZeros k l) :
    c = '0' ∨ c ∈ l := by
  simp only [padZeros, List.mem_append, List.mem_replicate] at hc
  rcases hc with hc | hc
  · exact Or.inl hc.2
  · exact Or.inr hc

theorem ne_dot_of_isDigit {c : Char} (h : c.isDigit = true) : c ≠ '.' := by
  intro hc
  subst hc
  simp [Char.isDigit] at h

theorem splitDot_append (l1 l2 : List Char) (h : ∀ c ∈ l1, c ≠ '.') :
    splitDot (l1 ++ '.' :: l2) = (l1, l2) := by
  induction l1 with
  | nil => simp [splitDot]
  | cons c l1 ih =>
    have hc : c ≠ '.' := h c (List.mem_cons_self c l1)
    simp only [List.cons_append, List.append_eq, splitDot, if_neg hc]
    simp [ih (fun d hd => h d (List.mem_cons_of_mem c hd))]

theorem splitDot_no_dot (l : List Char) (h : ∀ c ∈ l, c ≠ '.') :
    splitDot l = (l, []) := by
  induction l with
  | nil => rfl
  | cons c l ih =>
    have hc : c ≠ '.' := h c (List.mem_cons_self c l)
    simp only [splitDot, if_neg hc]
    rw [ih (fun d hd => h d (List.mem_cons_of_mem c hd))]

theorem isDigit_of_mem_padZeros_natDigits {k n : ℕ} {c : Char}
    (hc : c ∈ padZeros k (natDigits n)) : c.isDigit = true := by
  rcases mem_padZeros hc with h | h
  · subst h; rfl
  · exact isDigit_of_mem_natDigits h

/-- The fixed-point rendering parses back to the rounded value. -/
theorem parseDecimal_formatFixed (prec : ℕ) (q : ℚ) (hp : 1 ≤ prec) :
    parseDecimal (formatFixed prec q) =
      some (((⌊q * 10 ^ prec + 1 / 2⌋).toNat : ℚ) / 10 ^ prec) := by
  set m := (⌊q * 10 ^ prec + 1 / 2⌋).toNat with hm
  have hsplit : splitDot (natDigits (m / 10 ^ prec) ++
      '.' :: padZeros prec (natDigits (m % 10 ^ prec))) =
      (natDigits (m / 10 ^ prec), padZeros prec (natDigits (m % 10 ^ prec))) :=
    splitDot_append _ _
      (fun c hc => ne_dot_of_isDigit (isDigit_of_mem_natDigits hc))
  have hlen : (padZeros prec (natDigits (m % 10 ^ prec))).length = prec := by
    refine length_padZeros (length_natDigits_le hp ?_)
    exact Nat.mod_lt _ (by positivity)
  have hall1 : (natDigits (m / 10 ^ prec)).all Char.isDigit = true := by
    rw [List.all_eq_true]
    exact fun c hc => isDigit_of_mem_natDigits hc
  have hall2 : (padZeros prec (natDigits (m % 10 ^ prec))).all Char.isDigit = true := by
    rw [List.all_eq_true]
    exact fun c hc => isDigit_of_mem_padZeros_natDigits hc
  have hmod : digitsVal (padZeros prec (natDigits (m % 10 ^ prec))) = m % 10 ^ prec := by
    rw [digitsVal_padZeros, digitsVal_natDigits]
  unfold parseDecimal formatFixed
  simp only [← hm, hsplit, hall1, hall2, Bool.and_self, if_pos, hlen, hmod,
    digitsVal_natDigits]
  congr 1
  have hpow : (0 : ℚ) < 10 ^ prec := by positivity
  field_simp
  rw [mul_comm]
  exact_mod_cast Nat.div_add_mod m (10 ^ prec)

/-- Rounding to `prec` places stays inside a range whose endpoints are
exact at that precision. -/
theorem parseDecimal_formatFixed_range (prec A B : ℕ) (q : ℚ) (hp : 1 ≤ prec)
    (hA : (A : ℚ) / 10 ^ prec ≤ q) (hB : q ≤ (B : ℚ) / 10 ^ prec) :
    ∃ r : ℚ, parseDecimal (formatFixed prec q) = some r ∧
      (A : ℚ) / 10 ^ prec ≤ r ∧ r ≤ (B : ℚ) / 10 ^ prec := by
  refine ⟨_, parseDecimal_formatFixed prec q hp, ?_, ?_⟩
  all_goals
    have hpow : (0 : ℚ) < 10 ^ prec := by positivity
  · have h1 : (A : ℚ) ≤ q * 10 ^ prec := by
      rw [div_le_iff hpow] at hA
      exact hA
    have h2 : (A : ℤ) ≤ ⌊q * 10 ^ prec + 1 / 2⌋ := by
      rw [Int.le_floor]
      push_cast
      linarith
    have h3 : (A : ℚ) ≤ ((⌊q * 10 ^ prec + 1 / 2⌋).toNat : ℚ) := by
      have := Int.toNat_le_toNat h2
      simp only [Int.toNat_natCast] at this
      exact_mod_cast this
    gcongr
  · have h1 : q * 10 ^ prec ≤ (B : ℚ) := by
      rw [le_div_iff hpow] at hB
      exact hB
    have h2 : ⌊q * 10 ^ prec + 1 / 2⌋ ≤ (B : ℤ) := by
      have hlt : q * 10 ^ prec + 1 / 2 < (((B : ℤ) + 1 : ℤ) : ℚ) := by push_cast; linarith
      have hfl := Int.floor_lt.2 hlt
      omega
    have h3 : ((⌊q * 10 ^ prec + 1 / 2⌋).toNat : ℚ) ≤ (B : ℚ) := by
      have := Int.toNat_le.2 h2
      exact_mod_cast this
    gcongr

/-- The fixed-point rendering has exactly `prec` decimal places. -/
theorem hasExactlyDecimals_formatFixed (prec : ℕ) (q : ℚ) (hp : 1 ≤ prec) :
    hasExactlyDecimals prec (formatFixed prec q) := by
  refine ⟨natDigits ((⌊q * 10 ^ prec + 1 / 2⌋).toNat / 10 ^ prec),
    padZeros prec (natDigits ((⌊q * 10 ^ prec + 1 / 2⌋).toNat % 10 ^ prec)), rfl, ?_, ?_, ?_⟩
  · refine length_padZeros (length_natDigits_le hp ?_)
    exact Nat.mod_lt _ (by positivity)
  · exact fun c hc => isDigit_of_mem_padZeros_natDigits hc
  · intro hdot
    exact ne_dot_of_isDigit (isDigit_of_mem_natDigits hdot) rfl

/-- Rendering `str` of a non-negative integer gives a plain decimal numeral. -/
theorem isPlainNat_intRepr {z : ℤ} (hz : 0 ≤ z) : isPlainNat (intRepr z) := by
  unfold intRepr
  rw [if_neg (by omega)]
  exact ⟨natDigits_ne_nil _, fun c hc => isDigit_of_mem_natDigits hc⟩

/-- Rendering `str` of a non-negative integer parses back to its value. -/
theorem parseDecimal_intRepr {z : ℤ} (hz : 0 ≤ z) :
    parseDecimal (intRepr z) = some (z : ℚ) := by
  unfold intRepr natRepr parseDecimal
  rw [if_neg (by omega)]
  have hsplit : splitDot (natDigits z.toNat) = (natDigits z.toNat, []) :=
    splitDot_no_dot _ (fun c hc => ne_dot_of_isDigit (isDigit_of_mem_natDigits hc))
  have hall : (natDigits z.toNat).all Char.isDigit = true := by
    rw [List.all_eq_true]
    exact fun c hc => isDigit_of_mem_natDigits hc
  simp only [hsplit, hall, List.all_nil, Bool.and_true, if_pos, digitsVal_natDigits,
    digitsVal, List.length_nil, pow_zero]
  norm_num
  exact_mod_cast Int.toNat_of_nonneg hz

/-- Identifiers `f"PRE-{n:06d}"` with a fixed prefix are injective in `n`. -/
theorem idTag_injective (pre : String) : Function.Injective (idTag pre) := by
  intro m n h
  unfold idTag at h
  have hdata : pre.data ++ padZeros 6 (natDigits m) =
      pre.data ++ padZeros 6 (natDigits n) := by
    have := congrArg String.data h
    simpa [String.data_append] using this
  have hpad : padZeros 6 (natDigits m) = padZeros 6 (natDigits n) :=
    List.append_cancel_left hdata
  have := congrArg digitsVal hpad
  rwa [digitsVal_padZeros, digitsVal_padZeros, digitsVal_natDigits,
    digitsVal_natDigits] at this

/-! ## Behaviour of the random primitives -/

theorem randint_bounds (a b : ℤ) (s : RandState) (hab : a ≤ b) :
    a ≤ (randint a b s).1 ∧ (randint a b s).1 ≤ b := by
  unfold randint RandState.next
  have hkpos : 0 < (b - a + 1).toNat := by omega
  have hmod : s.src.ints s.idx % (b - a + 1).toNat < (b - a + 1).toNat :=
    Nat.mod_lt _ hkpos
  have hcast : ((s.src.ints s.idx % (b - a + 1).toNat : ℕ) : ℤ) <
      ((b - a + 1).toNat : ℤ) := by exact_mod_cast hmod
  have hnn : (0 : ℤ) ≤ ((s.src.ints s.idx % (b - a + 1).toNat : ℕ) : ℤ) := by positivity
  constructor <;> simp only [] <;> omega

theorem unit01_bounds (q : ℚ) : 0 ≤ unit01 q ∧ unit01 q ≤ 1 :=
  ⟨le_max_left 0 _, max_le (by norm_num) (min_le_left 1 q)⟩

theorem uniform_bounds (a b : ℚ) (s : RandState) (hab : a ≤ b) :
    a ≤ (uniform a b s).1 ∧ (uniform a b s).1 ≤ b := by
  unfold uniform RandState.nextReal
  obtain ⟨h0, h1⟩ := unit01_bounds (s.src.reals s.idx)
  have hd : (0 : ℚ) ≤ b - a := by linarith
  constructor
  · simp only []
    nlinarith
  · simp only []
    nlinarith

theorem pychoice_concrete {α : Type} (l : List α) (hl : 0 < l.length) (s : RandState) :
    pychoice l s =
      .ok (l.get ⟨s.src.ints s.idx % l.length, Nat.mod_lt _ hl⟩, ⟨s.src, s.idx + 1⟩) := by
  dsimp only [pychoice, RandState.next]
  rw [dif_neg (by omega)]

theorem pychoice_ok_mem {α : Type} {l : List α} {s s1 : RandState} {x : α}
    (h : pychoice l s = .ok (x, s1)) : x ∈ l := by
  dsimp only [pychoice, RandState.next] at h
  split at h
  · exact absurd h (by simp)
  · simp only [Except.ok.injEq, Prod.mk.injEq] at h
    exact h.1 ▸ List.get_mem l _ _

theorem pychoice_nil {α : Type} (s : RandState) :
    pychoice ([] : List α) s = .error .indexError := rfl

theorem pychoice_ne_nil {α : Type} (l : List α) (hl : l ≠ []) (s : RandState) :
    ∃ x, x ∈ l ∧ pychoice l s = .ok (x, ⟨s.src, s.idx + 1⟩) :=
  ⟨_, List.get_mem _ _ _, pychoice_concrete l (List.length_pos.2 hl) s⟩

/-! ## Structural facts about the generators -/

theorem generate_partsAux_spec (now : ℤ) : ∀ idxs s, ∃ ps s1,
    generate_partsAux now idxs s = .ok (ps, s1) ∧
    ps.map Part.part_id = idxs.map (idTag "PART-") ∧
    ∀ p ∈ ps, (1 / 10 : ℚ) ≤ p.weight_kg ∧ p.weight_kg ≤ 75 := by
  intro idxs
  induction idxs with
  | nil => exact fun s => ⟨[], s, rfl, rfl, by simp⟩
  | cons idx rest ih =>
    intro s
    obtain ⟨mat, hmat, hch⟩ := pychoice_ne_nil MATERIALS (by simp [MATERIALS])
      ⟨s.src, s.idx + 1 + 1⟩
    obtain ⟨ps, s1, hrec, hids, hw⟩ := ih ⟨s.src, s.idx + 1 + 1 + 1 + 1⟩
    dsimp only [generate_partsAux, randint, uniform, RandState.next, RandState.nextReal]
    rw [hch]
    dsimp only []
    rw [hrec]
    refine ⟨_, s1, rfl, ?_, ?_⟩
    · simp only [List.map_cons, hids]
    · intro p hp
      rcases List.mem_cons.1 hp with hp | hp
      · subst hp
        exact uniform_bounds (1 / 10) 75 ⟨s.src, s.idx + 1⟩ (by norm_num)
      · exact hw p hp

theorem generate_assembliesAux_spec (parts : List Part) (hne : parts ≠ []) :
    ∀ idxs s, ∃ as_ s1,
    generate_assembliesAux parts idxs s = .ok (as_, s1) ∧
    ∀ a ∈ as_, ∃ p ∈ parts, a.part_id = p.part_id ∧
      ((1 : ℚ) ≤ a.torque_nm ∧ a.torque_nm ≤ 150) ∧
      ∃ h : ℤ, 1 ≤ h ∧ h ≤ 500 ∧ a.timestamp = p.created_at + h * 3600 := by
  intro idxs
  induction idxs with
  | nil => exact fun s => ⟨[], s, rfl, by simp⟩
  | cons idx rest ih =>
    intro s
    obtain ⟨part, hpart, hch1⟩ := pychoice_ne_nil parts hne s
    obtain ⟨step, hstep, hch2⟩ := pychoice_ne_nil ASSEMBLY_STEPS
      (by simp [ASSEMBLY_STEPS]) ⟨s.src, s.idx + 1⟩
    obtain ⟨op, hop, hch3⟩ := pychoice_ne_nil OPERATORS
      (by simp [OPERATORS]) ⟨s.src, s.idx + 1 + 1 + 1⟩
    obtain ⟨as_, s1, hrec, hmem⟩ := ih ⟨s.src, s.idx + 1 + 1 + 1 + 1 + 1⟩
    dsimp only [generate_assembliesAux, randint, uniform, RandState.next,
      RandState.nextReal]
    rw [hch1]
    dsimp only []
    rw [hch2]
    dsimp only []
    rw [hch3]
    dsimp only []
    rw [hrec]
    refine ⟨_, s1, rfl, ?_⟩
    intro a ha
    rcases List.mem_cons.1 ha with ha | ha
    · subst ha
      refine ⟨part, hpart, rfl,
        uniform_bounds 1 150 ⟨s.src, s.idx + 1 + 1⟩ (by norm_num), ?_⟩
      refine ⟨(randint 1 500 ⟨s.src, s.idx + 1 + 1 + 1 + 1⟩).1, ?_, ?_, rfl⟩
      · exact (randint_bounds 1 500 _ (by norm_num)).1
      · exact (randint_bounds 1 500 _ (by norm_num)).2
    · exact hmem a ha

theorem generate_measurementsAux_spec (parts : List Part) (hne : parts ≠ []) :
    ∀ idxs s, ∃ ms s1,
    generate_measurementsAux parts idxs s = .ok (ms, s1) ∧
    ∀ m ∈ ms, ∃ p ∈ parts, m.part_id = p.part_id ∧
      ((0 : ℚ) ≤ m.value ∧ m.value ≤ 1000) ∧
      ∃ h : ℤ, 2 ≤ h ∧ h ≤ 720 ∧ m.measured_at = p.created_at + h * 3600 := by
  intro idxs
  induction idxs with
  | nil => exact fun s => ⟨[], s, rfl, by simp⟩
  | cons idx rest ih =>
    intro s
    obtain ⟨part, hpart, hch1⟩ := pychoice_ne_nil parts hne s
    obtain ⟨tu, htu, hch2⟩ := pychoice_ne_nil MEASUREMENT_TYPES
      (by simp [MEASUREMENT_TYPES]) ⟨s.src, s.idx + 1⟩
    obtain ⟨ms, s1, hrec, hmem⟩ := ih ⟨s.src, s.idx + 1 + 1 + 1 + 1⟩
    dsimp only [generate_measurementsAux, randint, uniform, RandState.next,
      RandState.nextReal]
    rw [hch1]
    dsimp only []
    rw [hch2]
    dsimp only []
    rw [hrec]
    refine ⟨_, s1, rfl, ?_⟩
    intro m hm
    rcases List.mem_cons.1 hm with hm | hm
    · subst hm
      refine ⟨part, hpart, rfl,
        uniform_bounds 0 1000 ⟨s.src, s.idx + 1 + 1⟩ (by norm_num), ?_⟩
      refine ⟨(randint 2 720 ⟨s.src, s.idx + 1 + 1 + 1⟩).1, ?_, ?_, rfl⟩
      · exact (randint_bounds 2 720 _ (by norm_num)).1
      · exact (randint_bounds 2 720 _ (by norm_num)).2
    · exact hmem m hm

theorem generate_supplier_relationshipsAux_spec (parts : List Part) (hne : parts ≠ []) :
    ∀ idxs s, ∃ rs s1,
    generate_supplier_relationshipsAux parts idxs s = .ok (rs, s1) ∧
    ∀ r ∈ rs, ∃ p ∈ parts, r.part_id = p.part_id ∧
      ((25 : ℚ) ≤ r.cost_usd ∧ r.cost_usd ≤ 10000) ∧
      ((1 : ℤ) ≤ r.lead_time_days ∧ r.lead_time_days ≤ 120) ∧
      ∃ d : ℤ, 0 ≤ d ∧ d ≤ 60 ∧ r.qualified_on = p.created_at - d * 86400 := by
  intro idxs
  induction idxs with
  | nil => exact fun s => ⟨[], s, rfl, by simp⟩
  | cons idx rest ih =>
    intro s
    obtain ⟨part, hpart, hch1⟩ := pychoice_ne_nil parts hne s
    obtain ⟨name, hname, hch2⟩ := pychoice_ne_nil SUPPLIERS
      (by simp [SUPPLIERS]) ⟨s.src, s.idx + 1⟩
    obtain ⟨rs, s1, hrec, hmem⟩ := ih ⟨s.src, s.idx + 1 + 1 + 1 + 1 + 1⟩
    dsimp only [generate_supplier_relationshipsAux, randint, uniform, RandState.next,
      RandState.nextReal]
    rw [hch1]
    dsimp only []
    rw [hch2]
    dsimp only []
    rw [hrec]
    refine ⟨_, s1, rfl, ?_⟩
    intro r hr
    rcases List.mem_cons.1 hr with hr | hr
    · subst hr
      refine ⟨part, hpart, rfl,
        uniform_bounds 25 10000 ⟨s.src, s.idx + 1 + 1⟩ (by norm_num), ?_, ?_⟩
      · exact randint_bounds 1 120 ⟨s.src, s.idx + 1 + 1 + 1⟩ (by norm_num)
      · refine ⟨(randint 0 60 ⟨s.src, s.idx + 1 + 1 + 1 + 1⟩).1, ?_, ?_, rfl⟩
        · exact (randint_bounds 0 60 _ (by norm_num)).1
        · exact (randint_bounds 0 60 _ (by norm_num)).2
    · exact hmem r hr

theorem range_map_succ_of_pos {n : ℤ} (hn : 0 < n) :
    ∃ rest, (List.range n.toNat).map (· + 1) = 1 :: rest := by
  obtain ⟨k, hk⟩ : ∃ k, n.toNat = k + 1 := ⟨n.toNat - 1, by omega⟩
  refine ⟨(List.map Nat.succ (List.range k)).map (· + 1), ?_⟩
  rw [hk, List.range_succ_eq_map]
  simp

theorem generate_assembliesAux_nil_cons (idx : ℕ) (rest : List ℕ) (s : RandState) :
    generate_assembliesAux [] (idx :: rest) s = .error .indexError := by
  dsimp only [generate_assembliesAux]
  rw [pychoice_nil]

theorem generate_measurementsAux_nil_cons (idx : ℕ) (rest : List ℕ) (s : RandState) :
    generate_measurementsAux [] (idx :: rest) s = .error .indexError := by
  dsimp only [generate_measurementsAux]
  rw [pychoice_nil]

theorem generate_supplier_relationshipsAux_nil_cons (idx : ℕ) (rest : List ℕ)
    (s : RandState) :
    generate_supplier_relationshipsAux [] (idx :: rest) s = .error .indexError := by
  dsimp only [generate_supplier_relationshipsAux]
  rw [pychoice_nil]

theorem generate_assemblies_empty {n : ℤ} (hn : 0 < n) (s : RandState) :
    generate_assemblies [] n s = .error .indexError := by
  obtain ⟨rest, hr⟩ := range_map_succ_of_pos hn
  unfold generate_assemblies
  rw [hr, generate_assembliesAux_nil_cons]

theorem generate_measurements_empty {n : ℤ} (hn : 0 < n) (s : RandState) :
    generate_measurements [] n s = .error .indexError := by
  obtain ⟨rest, hr⟩ := range_map_succ_of_pos hn
  unfold generate_measurements
  rw [hr, generate_measurementsAux_nil_cons]

theorem generate_supplier_relationships_empty {n : ℤ} (hn : 0 < n) (s : RandState) :
    generate_supplier_relationships [] n s = .error .indexError := by
  obtain ⟨rest, hr⟩ := range_map_succ_of_pos hn
  unfold generate_supplier_relationships
  rw [hr, generate_supplier_relationshipsAux_nil_cons]

theorem toNat_eq_zero_of_neg {n : ℤ} (hn : n < 0) : n.toNat = 0 := by omega

theorem generate_parts_neg {n : ℤ} (hn : n < 0) (now : ℤ) (s : RandState) :
    generate_parts n now s = .ok ([], s) := by
  unfold generate_parts
  rw [toNat_eq_zero_of_neg hn]
  rfl

theorem generate_assemblies_neg (parts : List Part) {n : ℤ} (hn : n < 0) (s : RandState) :
    generate_assemblies parts n s = .ok ([], s) := by
  unfold generate_assemblies
  rw [toNat_eq_zero_of_neg hn]
  rfl

theorem generate_measurements_neg (parts : List Part) {n : ℤ} (hn : n < 0) (s : RandState) :
    generate_measurements parts n s = .ok ([], s) := by
  unfold generate_measurements
  rw [toNat_eq_zero_of_neg hn]
  rfl

theorem generate_supplier_relationships_neg (parts : List Part) {n : ℤ} (hn : n < 0)
    (s : RandState) :
    generate_supplier_relationships parts n s = .ok ([], s) := by
  unfold generate_supplier_relationships
  rw [toNat_eq_zero_of_neg hn]
  rfl

theorem pychoice_map {α β : Type} (f : α → β) (l : List α) (s : RandState) :
    pychoice (l.map f) s = Except.map (fun x => (f x.1, x.2)) (pychoice l s) := by
  dsimp only [pychoice, RandState.next]
  by_cases h : l.length = 0
  · rw [dif_pos (by simp [h]), dif_pos h]
    rfl
  · rw [dif_neg (by simp [h]), dif_neg h]
    simp [Except.map, List.get_eq_getElem, List.getElem_map]

theorem generate_partsAux_shift (now1 now2 : ℤ) : ∀ idxs s ps s1,
    generate_partsAux now1 idxs s = .ok (ps, s1) →
    generate_partsAux now2 idxs s = .ok (ps.map (shiftPart (now2 - now1)), s1) := by
  intro idxs
  induction idxs with
  | nil =>
    intro s ps s1 h
    simp only [generate_partsAux, Except.ok.injEq, Prod.mk.injEq] at h ⊢
    exact ⟨by simp [← h.1], h.2⟩
  | cons idx rest ih =>
    intro s ps s1 h
    obtain ⟨mat, hmat, hch⟩ := pychoice_ne_nil MATERIALS (by simp [MATERIALS])
      ⟨s.src, s.idx + 1 + 1⟩
    dsimp only [generate_partsAux, randint, uniform, RandState.next,
      RandState.nextReal] at h ⊢
    rw [hch] at h ⊢
    dsimp only [] at h ⊢
    cases hrec : generate_partsAux now1 rest ⟨s.src, s.idx + 1 + 1 + 1 + 1⟩ with
    | error e =>
      rw [hrec] at h
      exact absurd h (by simp)
    | ok pr =>
      obtain ⟨ps0, s0⟩ := pr
      rw [hrec] at h
      rw [ih _ _ _ hrec]
      simp only [Except.ok.injEq, Prod.mk.injEq] at h
      obtain ⟨hps, hs1⟩ := h
      subst hs1
      rw [← hps]
      simp only [List.map_cons, Except.ok.injEq, Prod.mk.injEq, List.cons.injEq,
        and_true, true_and]
      dsimp [shiftPart]
      congr 1
      ring

theorem generate_assembliesAux_shift (δ : ℤ) (parts : List Part) : ∀ idxs s,
    generate_assembliesAux (parts.map (shiftPart δ)) idxs s =
      Except.map (fun x => (x.1.map (shiftAssembly δ), x.2))
        (generate_assembliesAux parts idxs s) := by
  intro idxs
  induction idxs with
  | nil => intro s; rfl
  | cons idx rest ih =>
    intro s
    dsimp only [generate_assembliesAux, randint, uniform, RandState.next,
      RandState.nextReal]
    rw [pychoice_map (shiftPart δ) parts s]
    cases hch : pychoice parts s with
    | error e => rfl
    | ok pr =>
      obtain ⟨part, s2⟩ := pr
      dsimp only [Except.map]
      obtain ⟨step, hstep, hch2⟩ := pychoice_ne_nil ASSEMBLY_STEPS
        (by simp [ASSEMBLY_STEPS]) s2
      rw [hch2]
      dsimp only []
      obtain ⟨op, hop, hch3⟩ := pychoice_ne_nil OPERATORS (by simp [OPERATORS])
        ⟨s2.src, s2.idx + 1 + 1⟩
      rw [hch3]
      dsimp only []
      rw [ih ⟨s2.src, s2.idx + 1 + 1 + 1 + 1⟩]
      cases hrec : generate_assembliesAux parts rest ⟨s2.src, s2.idx + 1 + 1 + 1 + 1⟩ with
      | error e => rfl
      | ok pr2 =>
        obtain ⟨as_, s1⟩ := pr2
        dsimp only [Except.map]
        simp only [List.map_cons, Except.ok.injEq, Prod.mk.injEq, List.cons.injEq,
          and_true, true_and]
        dsimp [shiftAssembly, shiftPart]
        congr 1
        ring

theorem generate_measurementsAux_shift (δ : ℤ) (parts : List Part) : ∀ idxs s,
    generate_measurementsAux (parts.map (shiftPart δ)) idxs s =
      Except.map (fun x => (x.1.map (shiftMeasurement δ), x.2))
        (generate_measurementsAux parts idxs s) := by
  intro idxs
  induction idxs with
  | nil => intro s; rfl
  | cons idx rest ih =>
    intro s
    dsimp only [generate_measurementsAux, randint, uniform, RandState.next,
      RandState.nextReal]
    rw [pychoice_map (shiftPart δ) parts s]
    cases hch : pychoice parts s with
    | error e => rfl
    | ok pr =>
      obtain ⟨part, s2⟩ := pr
      dsimp only [Except.map]
      obtain ⟨tu, htu, hch2⟩ := pychoice_ne_nil MEASUREMENT_TYPES
        (by simp [MEASUREMENT_TYPES]) s2
      rw [hch2]
      dsimp only []
      rw [ih ⟨s2.src, s2.idx + 1 + 1 + 1⟩]
      cases hrec : generate_measurementsAux parts rest ⟨s2.src, s2.idx + 1 + 1 + 1⟩ with
      | error e => rfl
      | ok pr2 =>
        obtain ⟨ms, s1⟩ := pr2
        dsimp only [Except.map]
        simp only [List.map_cons, Except.ok.injEq, Prod.mk.injEq, List.cons.injEq,
          and_true, true_and]
        dsimp [shiftMeasurement, shiftPart]
        congr 1
        ring

theorem generate_supplier_relationshipsAux_shift (δ : ℤ) (parts : List Part) : ∀ idxs s,
    generate_supplier_relationshipsAux (parts.map (shiftPart δ)) idxs s =
      Except.map (fun x => (x.1.map (shiftSupplier δ), x.2))
        (generate_supplier_relationshipsAux parts idxs s) := by
  intro idxs
  induction idxs with
  | nil => intro s; rfl
  | cons idx rest ih =>
    intro s
    dsimp only [generate_supplier_relationshipsAux, randint, uniform, RandState.next,
      RandState.nextReal]
    rw [pychoice_map (shiftPart δ) parts s]
    cases hch : pychoice parts s with
    | error e => rfl
    | ok pr =>
      obtain ⟨part, s2⟩ := pr
      dsimp only [Except.map]
      obtain ⟨name, hname, hch2⟩ := pychoice_ne_nil SUPPLIERS (by simp [SUPPLIERS]) s2
      rw [hch2]
      dsimp only []
      rw [ih ⟨s2.src, s2.idx + 1 + 1 + 1 + 1⟩]
      cases hrec : generate_supplier_relationshipsAux parts rest
          ⟨s2.src, s2.idx + 1 + 1 + 1 + 1⟩ with
      | error e => rfl
      | ok pr2 =>
        obtain ⟨rs, s1⟩ := pr2
        dsimp only [Except.map]
        simp only [List.map_cons, Except.ok.injEq, Prod.mk.injEq, List.cons.injEq,
          and_true, true_and]
        dsimp [shiftSupplier, shiftPart]
        congr 1
        ring

@[simp] theorem dropLast_to_row_shiftPart (δ : ℤ) (p : Part) :
    (Part.to_row (shiftPart δ p)).dropLast = (Part.to_row p).dropLast := rfl

@[simp] theorem dropLast_to_row_shiftAssembly (δ : ℤ) (a : Assembly) :
    (Assembly.to_row (shiftAssembly δ a)).dropLast = (Assembly.to_row a).dropLast := rfl

@[simp] theorem dropLast_to_row_shiftMeasurement (δ : ℤ) (m : Measurement) :
    (Measurement.to_row (shiftMeasurement δ m)).dropLast =
      (Measurement.to_row m).dropLast := rfl

@[simp] theorem dropLast_to_row_shiftSupplier (δ : ℤ) (r : SupplierRelationship) :
    (SupplierRelationship.to_row (shiftSupplier δ r)).dropLast =
      (SupplierRelationship.to_row r).dropLast := rfl

/-- Two runs with the same seed streams and counts but different clock
readings agree on the error outcome, on the final random state, and on
every file cell except the last (timestamp) column of each row. -/
theorem mainFiles_clock_shift (cfg : Config) (src : RandSource) (now1 now2 : ℤ) :
    (mainFiles cfg src now2).2 = (mainFiles cfg src now1).2 ∧
    (mainFiles cfg src now2).1.rand = (mainFiles cfg src now1).1.rand ∧
    ((mainFiles cfg src now2).1.files).map (fun f => (f.1, f.2.map List.dropLast)) =
      ((mainFiles cfg src now1).1.files).map (fun f => (f.1, f.2.map List.dropLast)) := by
  obtain ⟨ps, s1, hp1, -, -⟩ :=
    generate_partsAux_spec now1 ((List.range cfg.parts.toNat).map (· + 1)) ⟨src, 0⟩
  have hp2 := generate_partsAux_shift now1 now2 _ _ _ _ hp1
  dsimp only [mainFiles, runSteps, stepParts, stepAssemblies, stepMeasurements,
    stepSuppliers, generate_parts, generate_assemblies, generate_measurements,
    generate_supplier_relationships]
  rw [hp1, hp2]
  dsimp only []
  rw [generate_assembliesAux_shift (now2 - now1) ps
    ((List.range cfg.assemblies.toNat).map (· + 1)) s1]
  cases h2 : generate_assembliesAux ps ((List.range cfg.assemblies.toNat).map (· + 1)) s1 with
  | error e =>
    dsimp only [Except.map]
    refine ⟨rfl, rfl, ?_⟩
    simp [List.map_map, Function.comp]
  | ok pr2 =>
    obtain ⟨as_, s2⟩ := pr2
    dsimp only [Except.map]
    rw [generate_measurementsAux_shift (now2 - now1) ps
      ((List.range cfg.measurements.toNat).map (· + 1)) s2]
    cases h3 : generate_measurementsAux ps
        ((List.range cfg.measurements.toNat).map (· + 1)) s2 with
    | error e =>
      dsimp only [Except.map]
      refine ⟨rfl, rfl, ?_⟩
      simp [List.map_map, Function.comp]
    | ok pr3 =>
      obtain ⟨ms, s3⟩ := pr3
      dsimp only [Except.map]
      rw [generate_supplier_relationshipsAux_shift (now2 - now1) ps
        ((List.range cfg.suppliers.toNat).map (· + 1)) s3]
      cases h4 : generate_supplier_relationshipsAux ps
          ((List.range cfg.suppliers.toNat).map (· + 1)) s3 with
      | error e =>
        dsimp only [Except.map]
        refine ⟨rfl, rfl, ?_⟩
        simp [List.map_map, Function.comp]
      | ok pr4 =>
        obtain ⟨rs, s4⟩ := pr4
        dsimp only [Except.map]
        refine ⟨rfl, rfl, ?_⟩
        simp [List.map_map, Function.comp]

theorem generate_parts_spec (count now : ℤ) (s : RandState) : ∃ ps s1,
    generate_parts count now s = .ok (ps, s1) ∧
    ps.map Part.part_id =
      ((List.range count.toNat).map (· + 1)).map (idTag "PART-") ∧
    ∀ p ∈ ps, (1 / 10 : ℚ) ≤ p.weight_kg ∧ p.weight_kg ≤ 75 :=
  generate_partsAux_spec now _ s

theorem generate_assemblies_spec (parts : List Part) (hne : parts ≠ []) (count : ℤ)
    (s : RandState) : ∃ as_ s1,
    generate_assemblies parts count s = .ok (as_, s1) ∧
    ∀ a ∈ as_, ∃ p ∈ parts, a.part_id = p.part_id ∧
      ((1 : ℚ) ≤ a.torque_nm ∧ a.torque_nm ≤ 150) ∧
      ∃ h : ℤ, 1 ≤ h ∧ h ≤ 500 ∧ a.timestamp = p.created_at + h * 3600 :=
  generate_assembliesAux_spec parts hne _ s

theorem generate_measurements_spec (parts : List Part) (hne : parts ≠ []) (count : ℤ)
    (s : RandState) : ∃ ms s1,
    generate_measurements parts count s = .ok (ms, s1) ∧
    ∀ m ∈ ms, ∃ p ∈ parts, m.part_id = p.part_id ∧
      ((0 : ℚ) ≤ m.value ∧ m.value ≤ 1000) ∧
      ∃ h : ℤ, 2 ≤ h ∧ h ≤ 720 ∧ m.measured_at = p.created_at + h * 3600 :=
  generate_measurementsAux_spec parts hne _ s

theorem generate_supplier_relationships_spec (parts : List Part) (hne : parts ≠ [])
    (count : ℤ) (s : RandState) : ∃ rs s1,
    generate_supplier_relationships parts count s = .ok (rs, s1) ∧
    ∀ r ∈ rs, ∃ p ∈ parts, r.part_id = p.part_id ∧
      ((25 : ℚ) ≤ r.cost_usd ∧ r.cost_usd ≤ 10000) ∧
      ((1 : ℤ) ≤ r.lead_time_days ∧ r.lead_time_days ≤ 120) ∧
      ∃ d : ℤ, 0 ≤ d ∧ d ≤ 60 ∧ r.qualified_on = p.created_at - d * 86400 :=
  generate_supplier_relationshipsAux_spec parts hne _ s

theorem parts_length_of_ids {ps : List Part} {count : ℤ}
    (hids : ps.map Part.part_id =
      ((List.range count.toNat).map (· + 1)).map (idTag "PART-")) :
    ps.length = count.toNat := by
  have := congrArg List.length hids
  simpa using this

theorem parts_getElem_id {ps : List Part} {count : ℤ}
    (hids : ps.map Part.part_id =
      ((List.range count.toNat).map (· + 1)).map (idTag "PART-"))
    (i : ℕ) (hi : i < ps.length) :
    (ps.get ⟨i, hi⟩).part_id = idTag "PART-" (i + 1) := by
  have hlen : ps.length = count.toNat := parts_length_of_ids hids
  have hi2 : i < (ps.map Part.part_id).length := by simpa using hi
  have e1 : (ps.get ⟨i, hi⟩).part_id = (ps.map Part.part_id).get ⟨i, hi2⟩ := by
    simp [List.get_eq_getElem, List.getElem_map]
  rw [e1, List.get_of_eq hids ⟨i, hi2⟩]
  simp [List.get_eq_getElem, List.getElem_map, List.getElem_range]

theorem parts_ids_nodup {ps : List Part} {count : ℤ}
    (hids : ps.map Part.part_id =
      ((List.range count.toNat).map (· + 1)).map (idTag "PART-")) :
    (ps.map Part.part_id).Nodup := by
  rw [hids]
  refine List.Nodup.map (idTag_injective "PART-") ?_
  refine List.Nodup.map (fun a b h => by omega) (List.nodup_range _)

/-- The orchestrator on the all-success path: four files in write order. -/
theorem mainFiles_ok_shape (cfg : Config) (src : RandSource) (now : ℤ)
    (ps : List Part) (s1 : RandState)
    (hp : generate_parts cfg.parts now ⟨src, 0⟩ = .ok (ps, s1))
    (as_ : List Assembly) (s2 : RandState)
    (ha : generate_assemblies ps cfg.assemblies s1 = .ok (as_, s2))
    (ms : List Measurement) (s3 : RandState)
    (hm : generate_measurements ps cfg.measurements s2 = .ok (ms, s3))
    (rs : List SupplierRelationship) (s4 : RandState)
    (hs : generate_supplier_relationships ps cfg.suppliers s3 = .ok (rs, s4)) :
    mainFiles cfg src now =
      (⟨s4, ps, [("parts.csv", partsHeader :: ps.map Part.to_row),
        ("assemblies.csv", assembliesHeader :: as_.map Assembly.to_row),
        ("measurements.csv", measurementsHeader :: ms.map Measurement.to_row),
        ("supplier_relationships.csv",
          suppliersHeader :: rs.map SupplierRelationship.to_row)]⟩, none) := by
  dsimp only [mainFiles, runSteps, stepParts, stepAssemblies, stepMeasurements,
    stepSuppliers]
  rw [hp]
  dsimp only []
  rw [ha]
  dsimp only []
  rw [hm]
  dsimp only []
  rw [hs]
  rfl

/-- The orchestrator when assembly generation fails: `parts.csv` has been
written, the error propagates, nothing is rolled back. -/
theorem mainFiles_asm_error_shape (cfg : Config) (src : RandSource) (now : ℤ)
    (ps : List Part) (s1 : RandState)
    (hp : generate_parts cfg.parts now ⟨src, 0⟩ = .ok (ps, s1))
    (e : PyError) (ha : generate_assemblies ps cfg.assemblies s1 = .error e) :
    mainFiles cfg src now =
      (⟨s1, ps, [("parts.csv", partsHeader :: ps.map Part.to_row)]⟩, some e) := by
  dsimp only [mainFiles, runSteps, stepParts, stepAssemblies]
  rw [hp]
  dsimp only []
  rw [ha]
  rfl

/-! ## The claims -/

/-- C2: for every count `N ≥ 0`, `generate_parts(N)` succeeds and returns
exactly `N` records whose `part_id` fields are, in list order, the
sequential identifiers `PART-000001`, `PART-000002`, ... (index zero-padded
to six digits), and these identifiers are pairwise distinct. -/
theorem C2_parts_count_and_sequential_ids (N : ℤ) (hN : 0 ≤ N) (now : ℤ)
    (s : RandState) :
    ∃ ps s1, generate_parts N now s = .ok (ps, s1) ∧
      (ps.length : ℤ) = N ∧
      (∀ i (hi : i < ps.length), (ps.get ⟨i, hi⟩).part_id = idTag "PART-" (i + 1)) ∧
      (ps.map Part.part_id).Nodup := by
  obtain ⟨ps, s1, hp, hids, -⟩ := generate_parts_spec N now s
  refine ⟨ps, s1, hp, ?_, fun i hi => parts_getElem_id hids i hi, parts_ids_nodup hids⟩
  have := parts_length_of_ids hids
  omega

theorem C2_witness :
    ∃ ps s1, generate_parts 2 0 wSt = .ok (ps, s1) ∧
      (ps.length : ℤ) = 2 ∧
      (∀ i (hi : i < ps.length), (ps.get ⟨i, hi⟩).part_id = idTag "PART-" (i + 1)) ∧
      (ps.map Part.part_id).Nodup :=
  C2_parts_count_and_sequential_ids 2 (by norm_num) 0 wSt

/-- C3: every record produced by the three dependent generators carries a
`part_id` that occurs in the given part list. -/
theorem C3_foreign_keys_exist (parts : List Part) (hne : parts ≠ []) (N : ℤ)
    (hN : 0 ≤ N) (sa sm ss sa1 sm1 ss1 : RandState) (as_ : List Assembly)
    (ms : List Measurement) (rs : List SupplierRelationship)
    (ha : generate_assemblies parts N sa = .ok (as_, sa1))
    (hm : generate_measurements parts N sm = .ok (ms, sm1))
    (hs : generate_supplier_relationships parts N ss = .ok (rs, ss1)) :
    (∀ a ∈ as_, a.part_id ∈ parts.map Part.part_id) ∧
    (∀ m ∈ ms, m.part_id ∈ parts.map Part.part_id) ∧
    (∀ r ∈ rs, r.part_id ∈ parts.map Part.part_id) := by
  obtain ⟨as0, sx, hae, hap⟩ := generate_assemblies_spec parts hne N sa
  rw [hae] at ha
  injection ha with ha
  obtain ⟨ha1, -⟩ := Prod.mk.injEq .. ▸ (ha : (as0, sx) = (as_, sa1))
  obtain ⟨ms0, sy, hme, hmp⟩ := generate_measurements_spec parts hne N sm
  rw [hme] at hm
  injection hm with hm
  obtain ⟨hm1, -⟩ := Prod.mk.injEq .. ▸ (hm : (ms0, sy) = (ms, sm1))
  obtain ⟨rs0, sz, hse, hsp⟩ := generate_supplier_relationships_spec parts hne N ss
  rw [hse] at hs
  injection hs with hs
  obtain ⟨hs1, -⟩ := Prod.mk.injEq .. ▸ (hs : (rs0, sz) = (rs, ss1))
  subst ha1 hm1 hs1
  refine ⟨fun a haa => ?_, fun m hmm => ?_, fun r hrr => ?_⟩
  · obtain ⟨p, hp, hpe, -⟩ := hap a haa
    exact List.mem_map.2 ⟨p, hp, hpe.symm⟩
  · obtain ⟨p, hp, hpe, -⟩ := hmp m hmm
    exact List.mem_map.2 ⟨p, hp, hpe.symm⟩
  · obtain ⟨p, hp, hpe, -⟩ := hsp r hrr
    exact List.mem_map.2 ⟨p, hp, hpe.symm⟩

theorem C3_witness :
    (∀ a ∈ okListOf (generate_assemblies [wPart] 1 wSt),
      a.part_id ∈ [wPart].map Part.part_id) ∧
    (∀ m ∈ okListOf (generate_measurements [wPart] 1 wSt),
      m.part_id ∈ [wPart].map Part.part_id) ∧
    (∀ r ∈ okListOf (generate_supplier_relationships [wPart] 1 wSt),
      r.part_id ∈ [wPart].map Part.part_id) :=
  C3_foreign_keys_exist [wPart] (by simp) 1 (by norm_num) wSt wSt wSt
    (okStateOf wSt (generate_assemblies [wPart] 1 wSt))
    (okStateOf wSt (generate_measurements [wPart] 1 wSt))
    (okStateOf wSt (generate_supplier_relationships [wPart] 1 wSt))
    (okListOf (generate_assemblies [wPart] 1 wSt))
    (okListOf (generate_measurements [wPart] 1 wSt))
    (okListOf (generate_supplier_relationships [wPart] 1 wSt))
    rfl rfl rfl

/-- C4: each dependent generator invoked on an empty part sequence with a
positive count fails with the error that the spec's taxonomy classifies as
`InvalidArgument`. -/
theorem C4_empty_parts_invalid_argument (N : ℤ) (hN : 0 < N) (s : RandState) :
    generate_assemblies [] N s = .error .indexError ∧
    generate_measurements [] N s = .error .indexError ∧
    generate_supplier_relationships [] N s = .error .indexError ∧
    specErrKind .indexError = .invalidArgument :=
  ⟨generate_assemblies_empty hN s, generate_measurements_empty hN s,
    generate_supplier_relationships_empty hN s, rfl⟩

theorem C4_witness :
    generate_assemblies [] 1 wSt = .error .indexError ∧
    generate_measurements [] 1 wSt = .error .indexError ∧
    generate_supplier_relationships [] 1 wSt = .error .indexError ∧
    specErrKind .indexError = .invalidArgument :=
  C4_empty_parts_invalid_argument 1 (by norm_num) wSt

/-- C9: a negative count makes each generator return an empty list with no
error, so a run whose counts are all negative writes four header-only CSV
files and succeeds. -/
theorem C9_negative_counts_empty (N : ℤ) (hN : N < 0) (now : ℤ) (s : RandState)
    (parts : List Part) (src : RandSource) :
    generate_parts N now s = .ok ([], s) ∧
    generate_assemblies parts N s = .ok ([], s) ∧
    generate_measurements parts N s = .ok ([], s) ∧
    generate_supplier_relationships parts N s = .ok ([], s) ∧
    mainFiles ⟨N, N, N, N⟩ src now =
      (⟨⟨src, 0⟩, [], [("parts.csv", [partsHeader]),
        ("assemblies.csv", [assembliesHeader]),
        ("measurements.csv", [measurementsHeader]),
        ("supplier_relationships.csv", [suppliersHeader])]⟩, none) := by
  refine ⟨generate_parts_neg hN now s, generate_assemblies_neg parts hN s,
    generate_measurements_neg parts hN s,
    generate_supplier_relationships_neg parts hN s, ?_⟩
  have h := mainFiles_ok_shape ⟨N, N, N, N⟩ src now [] ⟨src, 0⟩
    (generate_parts_neg hN now ⟨src, 0⟩) [] ⟨src, 0⟩
    (generate_assemblies_neg [] hN ⟨src, 0⟩) [] ⟨src, 0⟩
    (generate_measurements_neg [] hN ⟨src, 0⟩) [] ⟨src, 0⟩
    (generate_supplier_relationships_neg [] hN ⟨src, 0⟩)
  simpa using h

theorem C9_witness :
    generate_parts (-1) 0 wSt = .ok ([], wSt) ∧
    generate_assemblies [wPart] (-1) wSt = .ok ([], wSt) ∧
    generate_measurements [wPart] (-1) wSt = .ok ([], wSt) ∧
    generate_supplier_relationships [wPart] (-1) wSt = .ok ([], wSt) ∧
    mainFiles ⟨-1, -1, -1, -1⟩ wSrc 0 =
      (⟨⟨wSrc, 0⟩, [], [("parts.csv", [partsHeader]),
        ("assemblies.csv", [assembliesHeader]),
        ("measurements.csv", [measurementsHeader]),
        ("supplier_relationships.csv", [suppliersHeader])]⟩, none) :=
  C9_negative_counts_empty (-1) (by norm_num) 0 wSt [wPart] wSrc

/-- C10: the dependent generation steps never change the `parts` binding
threaded through the orchestrator, and the parts written and reused are
exactly the output of `generate_parts`. -/
theorem C10_parts_frame (np na nm ns now : ℤ) (σp σa σm σs σp1 σa1 σm1 σs1 : OrchState)
    (hp : stepParts np now σp = .ok σp1)
    (ha : stepAssemblies na σa = .ok σa1)
    (hm : stepMeasurements nm σm = .ok σm1)
    (hs : stepSuppliers ns σs = .ok σs1) :
    σa1.parts = σa.parts ∧ σm1.parts = σm.parts ∧ σs1.parts = σs.parts ∧
    generate_parts np now σp.rand = .ok (σp1.parts, σp1.rand) := by
  refine ⟨?_, ?_, ?_, ?_⟩
  · dsimp only [stepAssemblies] at ha
    rcases h : generate_assemblies σa.parts na σa.rand with e | pr
    · rw [h] at ha
      exact absurd ha (by simp)
    · rw [h] at ha
      obtain ⟨as_, r⟩ := pr
      injection ha with ha
      subst ha
      rfl
  · dsimp only [stepMeasurements] at hm
    rcases h : generate_measurements σm.parts nm σm.rand with e | pr
    · rw [h] at hm
      exact absurd hm (by simp)
    · rw [h] at hm
      obtain ⟨ms, r⟩ := pr
      injection hm with hm
      subst hm
      rfl
  · dsimp only [stepSuppliers] at hs
    rcases h : generate_supplier_relationships σs.parts ns σs.rand with e | pr
    · rw [h] at hs
      exact absurd hs (by simp)
    · rw [h] at hs
      obtain ⟨rs, r⟩ := pr
      injection hs with hs
      subst hs
      rfl
  · dsimp only [stepParts] at hp
    rcases h : generate_parts np now σp.rand with e | pr
    · rw [h] at hp
      exact absurd hp (by simp)
    · rw [h] at hp
      obtain ⟨ps, r⟩ := pr
      injection hp with hp
      subst hp
      rfl

theorem C10_witness :
    (orchOf wOrch (stepAssemblies 1 wOrch)).parts = wOrch.parts ∧
    (orchOf wOrch (stepMeasurements 1 wOrch)).parts = wOrch.parts ∧
    (orchOf wOrch (stepSuppliers 1 wOrch)).parts = wOrch.parts ∧
    generate_parts 1 0 wOrchP.rand =
      .ok ((orchOf wOrchP (stepParts 1 0 wOrchP)).parts,
        (orchOf wOrchP (stepParts 1 0 wOrchP)).rand) :=
  C10_parts_frame 1 1 1 1 0 wOrchP wOrch wOrch wOrch
    (orchOf wOrchP (stepParts 1 0 wOrchP)) (orchOf wOrch (stepAssemblies 1 wOrch))
    (orchOf wOrch (stepMeasurements 1 wOrch)) (orchOf wOrch (stepSuppliers 1 wOrch))
    rfl rfl rfl rfl

theorem except_ok_fst {α : Type} {e : Except PyError (List α × RandState)}
    {l1 l2 : List α} {t1 t2 : RandState} (h1 : e = .ok (l1, t1)) (h2 : e = .ok (l2, t2)) :
    l1 = l2 := by
  rw [h1] at h2
  simp only [Except.ok.injEq, Prod.mk.injEq] at h2
  exact h2.1

/-- Range preservation with the endpoints given directly as rationals that
are exact at the target precision. -/
theorem parseDecimal_formatFixed_mem (prec : ℕ) (a b q : ℚ) (hp : 1 ≤ prec)
    (ha : ∃ A : ℕ, (A : ℚ) = a * 10 ^ prec) (hb : ∃ B : ℕ, (B : ℚ) = b * 10 ^ prec)
    (h1 : a ≤ q) (h2 : q ≤ b) :
    ∃ r, parseDecimal (formatFixed prec q) = some r ∧ a ≤ r ∧ r ≤ b := by
  obtain ⟨A, hA⟩ := ha
  obtain ⟨B, hB⟩ := hb
  have hpow : (0 : ℚ) < 10 ^ prec := by positivity
  have ea : (A : ℚ) / 10 ^ prec = a := by
    rw [hA]
    field_simp
  have eb : (B : ℚ) / 10 ^ prec = b := by
    rw [hB]
    field_simp
  obtain ⟨r, hpr, h3, h4⟩ := parseDecimal_formatFixed_range prec A B q hp
    (by rw [ea]; exact h1) (by rw [eb]; exact h2)
  rw [ea] at h3
  rw [eb] at h4
  exact ⟨r, hpr, h3, h4⟩

/-- C5: a run with one table's row count set to zero and the other counts
at the CLI defaults writes, for that table, a file holding exactly the
header row; the serialized header-only file is never empty. -/
theorem C5_zero_count_header_only (src : RandSource) (now : ℤ) :
    ((mainFiles ⟨0, 200, 300, 50⟩ src now).1.files.lookup "parts.csv" =
        some [partsHeader] ∧ csvSerialize [partsHeader] ≠ "") ∧
    ((mainFiles ⟨100, 0, 300, 50⟩ src now).1.files.lookup "assemblies.csv" =
        some [assembliesHeader] ∧ csvSerialize [assembliesHeader] ≠ "") ∧
    ((mainFiles ⟨100, 200, 0, 50⟩ src now).1.files.lookup "measurements.csv" =
        some [measurementsHeader] ∧ csvSerialize [measurementsHeader] ≠ "") ∧
    ((mainFiles ⟨100, 200, 300, 0⟩ src now).1.files.lookup "supplier_relationships.csv" =
        some [suppliersHeader] ∧ csvSerialize [suppliersHeader] ≠ "") := by
  have hser1 : csvSerialize [partsHeader] ≠ "" := by decide
  have hser2 : csvSerialize [assembliesHeader] ≠ "" := by decide
  have hser3 : csvSerialize [measurementsHeader] ≠ "" := by decide
  have hser4 : csvSerialize [suppliersHeader] ≠ "" := by decide
  refine ⟨⟨?_, hser1⟩, ⟨?_, hser2⟩, ⟨?_, hser3⟩, ⟨?_, hser4⟩⟩
  · have hp0 : generate_parts 0 now ⟨src, 0⟩ = .ok ([], ⟨src, 0⟩) := rfl
    have ha0 : generate_assemblies ([] : List Part) 200 ⟨src, 0⟩ = .error .indexError :=
      generate_assemblies_empty (by norm_num) _
    rw [mainFiles_asm_error_shape ⟨0, 200, 300, 50⟩ src now [] ⟨src, 0⟩ hp0 .indexError ha0]
    rfl
  · obtain ⟨ps, s1, hp, hids, -⟩ := generate_parts_spec 100 now ⟨src, 0⟩
    have hlen := parts_length_of_ids hids
    have hne : ps ≠ [] := by
      intro hnil
      rw [hnil] at hlen
      simp at hlen
    have ha : generate_assemblies ps 0 s1 = .ok ([], s1) := rfl
    obtain ⟨ms, s3, hm, -⟩ := generate_measurements_spec ps hne 300 s1
    obtain ⟨rs, s4, hs, -⟩ := generate_supplier_relationships_spec ps hne 50 s3
    rw [mainFiles_ok_shape ⟨100, 0, 300, 50⟩ src now ps s1 hp [] s1 ha ms s3 hm rs s4 hs]
    rfl
  · obtain ⟨ps, s1, hp, hids, -⟩ := generate_parts_spec 100 now ⟨src, 0⟩
    have hlen := parts_length_of_ids hids
    have hne : ps ≠ [] := by
      intro hnil
      rw [hnil] at hlen
      simp at hlen
    obtain ⟨as_, s2, ha, -⟩ := generate_assemblies_spec ps hne 200 s1
    have hm : generate_measurements ps 0 s2 = .ok ([], s2) := rfl
    obtain ⟨rs, s4, hs, -⟩ := generate_supplier_relationships_spec ps hne 50 s2
    rw [mainFiles_ok_shape ⟨100, 200, 0, 50⟩ src now ps s1 hp as_ s2 ha [] s2 hm rs s4 hs]
    rfl
  · obtain ⟨ps, s1, hp, hids, -⟩ := generate_parts_spec 100 now ⟨src, 0⟩
    have hlen := parts_length_of_ids hids
    have hne : ps ≠ [] := by
      intro hnil
      rw [hnil] at hlen
      simp at hlen
    obtain ⟨as_, s2, ha, -⟩ := generate_assemblies_spec ps hne 200 s1
    obtain ⟨ms, s3, hm, -⟩ := generate_measurements_spec ps hne 300 s2
    have hs : generate_supplier_relationships ps 0 s3 = .ok ([], s3) := rfl
    rw [mainFiles_ok_shape ⟨100, 200, 300, 0⟩ src now ps s1 hp as_ s2 ha ms s3 hm [] s3 hs]
    rfl

/-- C6: in every serialized row, `weight_kg` and the measurement `value`
are rendered with exactly three decimal places, `torque_nm` and `cost_usd`
with exactly two, and `lead_time_days` as a plain decimal integer. -/
theorem C6_fixed_decimal_rendering
    (now N1 N2 N3 N4 : ℤ) (parts : List Part) (hne : parts ≠ [])
    (s1 t1 s2 t2 s3 t3 s4 t4 : RandState)
    (ps : List Part) (as_ : List Assembly) (ms : List Measurement)
    (rs : List SupplierRelationship)
    (h1 : generate_parts N1 now s1 = .ok (ps, t1))
    (h2 : generate_assemblies parts N2 s2 = .ok (as_, t2))
    (h3 : generate_measurements parts N3 s3 = .ok (ms, t3))
    (h4 : generate_supplier_relationships parts N4 s4 = .ok (rs, t4)) :
    (∀ p ∈ ps, hasExactlyDecimals 3 ((Part.to_row p).get ⟨3, by simp [Part.to_row]⟩)) ∧
    (∀ a ∈ as_,
      hasExactlyDecimals 2 ((Assembly.to_row a).get ⟨3, by simp [Assembly.to_row]⟩)) ∧
    (∀ m ∈ ms,
      hasExactlyDecimals 3 ((Measurement.to_row m).get ⟨3, by simp [Measurement.to_row]⟩)) ∧
    (∀ r ∈ rs,
      hasExactlyDecimals 2
        ((SupplierRelationship.to_row r).get ⟨3, by simp [SupplierRelationship.to_row]⟩) ∧
      isPlainNat
        ((SupplierRelationship.to_row r).get ⟨4, by simp [SupplierRelationship.to_row]⟩)) := by
  obtain ⟨rs0, sz, hse, hsp⟩ := generate_supplier_relationships_spec parts hne N4 s4
  have hrs : rs0 = rs := except_ok_fst hse h4
  subst hrs
  refine ⟨fun p hp => ?_, fun a ha => ?_, fun m hm => ?_, fun r hr => ?_⟩
  · exact hasExactlyDecimals_formatFixed 3 p.weight_kg (by norm_num)
  · exact hasExactlyDecimals_formatFixed 2 a.torque_nm (by norm_num)
  · exact hasExactlyDecimals_formatFixed 3 m.value (by norm_num)
  · obtain ⟨p, hp, -, -, ⟨hl1, hl2⟩, -⟩ := hsp r hr
    refine ⟨hasExactlyDecimals_formatFixed 2 r.cost_usd (by norm_num), ?_⟩
    have hcell : (SupplierRelationship.to_row r).get
        ⟨4, by simp [SupplierRelationship.to_row]⟩ = intRepr r.lead_time_days := rfl
    rw [hcell]
    exact isPlainNat_intRepr (by omega)

theorem C6_witness :
    (∀ p ∈ okListOf (generate_parts 1 0 wSt),
      hasExactlyDecimals 3 ((Part.to_row p).get ⟨3, by simp [Part.to_row]⟩)) ∧
    (∀ a ∈ okListOf (generate_assemblies [wPart] 1 wSt),
      hasExactlyDecimals 2 ((Assembly.to_row a).get ⟨3, by simp [Assembly.to_row]⟩)) ∧
    (∀ m ∈ okListOf (generate_measurements [wPart] 1 wSt),
      hasExactlyDecimals 3 ((Measurement.to_row m).get ⟨3, by simp [Measurement.to_row]⟩)) ∧
    (∀ r ∈ okListOf (generate_supplier_relationships [wPart] 1 wSt),
      hasExactlyDecimals 2
        ((SupplierRelationship.to_row r).get ⟨3, by simp [SupplierRelationship.to_row]⟩) ∧
      isPlainNat
        ((SupplierRelationship.to_row r).get ⟨4, by simp [SupplierRelationship.to_row]⟩)) :=
  C6_fixed_decimal_rendering 0 1 1 1 1 [wPart] (by simp) wSt
    (okStateOf wSt (generate_parts 1 0 wSt)) wSt
    (okStateOf wSt (generate_assemblies [wPart] 1 wSt)) wSt
    (okStateOf wSt (generate_measurements [wPart] 1 wSt)) wSt
    (okStateOf wSt (generate_supplier_relationships [wPart] 1 wSt))
    (okListOf (generate_parts 1 0 wSt))
    (okListOf (generate_assemblies [wPart] 1 wSt))
    (okListOf (generate_measurements [wPart] 1 wSt))
    (okListOf (generate_supplier_relationships [wPart] 1 wSt))
    rfl rfl rfl rfl

/-- C7: every rendered numeric cell parses back to a value inside the
declared range of its record type. -/
theorem C7_numeric_ranges
    (now N1 N2 N3 N4 : ℤ) (parts : List Part) (hne : parts ≠ [])
    (s1 t1 s2 t2 s3 t3 s4 t4 : RandState)
    (ps : List Part) (as_ : List Assembly) (ms : List Measurement)
    (rs : List SupplierRelationship)
    (h1 : generate_parts N1 now s1 = .ok (ps, t1))
    (h2 : generate_assemblies parts N2 s2 = .ok (as_, t2))
    (h3 : generate_measurements parts N3 s3 = .ok (ms, t3))
    (h4 : generate_supplier_relationships parts N4 s4 = .ok (rs, t4)) :
    (∀ p ∈ ps, ∃ w, parseDecimal ((Part.to_row p).get ⟨3, by simp [Part.to_row]⟩) =
      some w ∧ (1 : ℚ) / 10 ≤ w ∧ w ≤ 75) ∧
    (∀ a ∈ as_, ∃ t, parseDecimal ((Assembly.to_row a).get ⟨3, by simp [Assembly.to_row]⟩) =
      some t ∧ (1 : ℚ) ≤ t ∧ t ≤ 150) ∧
    (∀ m ∈ ms, ∃ v,
      parseDecimal ((Measurement.to_row m).get ⟨3, by simp [Measurement.to_row]⟩) =
      some v ∧ (0 : ℚ) ≤ v ∧ v ≤ 1000) ∧
    (∀ r ∈ rs, (∃ c, parseDecimal
        ((SupplierRelationship.to_row r).get ⟨3, by simp [SupplierRelationship.to_row]⟩) =
        some c ∧ (25 : ℚ) ≤ c ∧ c ≤ 10000) ∧
      (∃ ld, parseDecimal
        ((SupplierRelationship.to_row r).get ⟨4, by simp [SupplierRelationship.to_row]⟩) =
        some ld ∧ (1 : ℚ) ≤ ld ∧ ld ≤ 120)) := by
  obtain ⟨ps0, tw, hpe, -, hpp⟩ := generate_parts_spec N1 now s1
  have hps : ps0 = ps := except_ok_fst hpe h1
  subst hps
  obtain ⟨as0, tx, hae, hap⟩ := generate_assemblies_spec parts hne N2 s2
  have has : as0 = as_ := except_ok_fst hae h2
  subst has
  obtain ⟨ms0, ty, hme, hmp⟩ := generate_measurements_spec parts hne N3 s3
  have hms : ms0 = ms := except_ok_fst hme h3
  subst hms
  obtain ⟨rs0, tz, hse, hsp⟩ := generate_supplier_relationships_spec parts hne N4 s4
  have hrs : rs0 = rs := except_ok_fst hse h4
  subst hrs
  refine ⟨fun p hp => ?_, fun a ha => ?_, fun m hm => ?_, fun r hr => ⟨?_, ?_⟩⟩
  · obtain ⟨hw1, hw2⟩ := hpp p hp
    exact parseDecimal_formatFixed_mem 3 (1 / 10) 75 p.weight_kg (by norm_num)
      ⟨100, by norm_num⟩ ⟨75000, by norm_num⟩ hw1 hw2
  · obtain ⟨-, -, -, ⟨ht1, ht2⟩, -⟩ := hap a ha
    exact parseDecimal_formatFixed_mem 2 1 150 a.torque_nm (by norm_num)
      ⟨100, by norm_num⟩ ⟨15000, by norm_num⟩ ht1 ht2
  · obtain ⟨-, -, -, ⟨hv1, hv2⟩, -⟩ := hmp m hm
    exact parseDecimal_formatFixed_mem 3 0 1000 m.value (by norm_num)
      ⟨0, by norm_num⟩ ⟨1000000, by norm_num⟩ hv1 hv2
  · obtain ⟨-, -, -, ⟨hc1, hc2⟩, -⟩ := hsp r hr
    exact parseDecimal_formatFixed_mem 2 25 10000 r.cost_usd (by norm_num)
      ⟨2500, by norm_num⟩ ⟨1000000, by norm_num⟩ hc1 hc2
  · obtain ⟨-, -, -, -, ⟨hl1, hl2⟩, -⟩ := hsp r hr
    have hcell : (SupplierRelationship.to_row r).get
        ⟨4, by simp [SupplierRelationship.to_row]⟩ = intRepr r.lead_time_days := rfl
    rw [hcell, parseDecimal_intRepr (by omega)]
    refine ⟨(r.lead_time_days : ℚ), rfl, ?_, ?_⟩
    · exact_mod_cast hl1
    · exact_mod_cast hl2

theorem C7_witness :
    (∀ p ∈ okListOf (generate_parts 1 0 wSt), ∃ w,
      parseDecimal ((Part.to_row p).get ⟨3, by simp [Part.to_row]⟩) =
      some w ∧ (1 : ℚ) / 10 ≤ w ∧ w ≤ 75) ∧
    (∀ a ∈ okListOf (generate_assemblies [wPart] 1 wSt), ∃ t,
      parseDecimal ((Assembly.to_row a).get ⟨3, by simp [Assembly.to_row]⟩) =
      some t ∧ (1 : ℚ) ≤ t ∧ t ≤ 150) ∧
    (∀ m ∈ okListOf (generate_measurements [wPart] 1 wSt), ∃ v,
      parseDecimal ((Measurement.to_row m).get ⟨3, by simp [Measurement.to_row]⟩) =
      some v ∧ (0 : ℚ) ≤ v ∧ v ≤ 1000) ∧
    (∀ r ∈ okListOf (generate_supplier_relationships [wPart] 1 wSt), (∃ c, parseDecimal
        ((SupplierRelationship.to_row r).get ⟨3, by simp [SupplierRelationship.to_row]⟩) =
        some c ∧ (25 : ℚ) ≤ c ∧ c ≤ 10000) ∧
      (∃ ld, parseDecimal
        ((SupplierRelationship.to_row r).get ⟨4, by simp [SupplierRelationship.to_row]⟩) =
        some ld ∧ (1 : ℚ) ≤ ld ∧ ld ≤ 120)) :=
  C7_numeric_ranges 0 1 1 1 1 [wPart] (by simp) wSt
    (okStateOf wSt (generate_parts 1 0 wSt)) wSt
    (okStateOf wSt (generate_assemblies [wPart] 1 wSt)) wSt
    (okStateOf wSt (generate_measurements [wPart] 1 wSt)) wSt
    (okStateOf wSt (generate_supplier_relationships [wPart] 1 wSt))
    (okListOf (generate_parts 1 0 wSt))
    (okListOf (generate_assemblies [wPart] 1 wSt))
    (okListOf (generate_measurements [wPart] 1 wSt))
    (okListOf (generate_supplier_relationships [wPart] 1 wSt))
    rfl rfl rfl rfl

/-- C8: every dependent record's timestamp is the referenced part's
creation time plus the declared offset: assemblies add an hour offset in
`[1, 500]` (strictly after), measurements add an hour offset in `[2, 720]`,
and supplier relationships subtract a day offset in `[0, 60]` (not after). -/
theorem C8_dependent_timestamps
    (parts : List Part) (hne : parts ≠ []) (N2 N3 N4 : ℤ)
    (s2 t2 s3 t3 s4 t4 : RandState)
    (as_ : List Assembly) (ms : List Measurement) (rs : List SupplierRelationship)
    (h2 : generate_assemblies parts N2 s2 = .ok (as_, t2))
    (h3 : generate_measurements parts N3 s3 = .ok (ms, t3))
    (h4 : generate_supplier_relationships parts N4 s4 = .ok (rs, t4)) :
    (∀ a ∈ as_, ∃ p ∈ parts, a.part_id = p.part_id ∧
      (∃ h : ℤ, 1 ≤ h ∧ h ≤ 500 ∧ a.timestamp = p.created_at + h * 3600) ∧
      p.created_at < a.timestamp) ∧
    (∀ m ∈ ms, ∃ p ∈ parts, m.part_id = p.part_id ∧
      ∃ h : ℤ, 2 ≤ h ∧ h ≤ 720 ∧ m.measured_at = p.created_at + h * 3600) ∧
    (∀ r ∈ rs, ∃ p ∈ parts, r.part_id = p.part_id ∧
      (∃ d : ℤ, 0 ≤ d ∧ d ≤ 60 ∧ r.qualified_on = p.created_at - d * 86400) ∧
      r.qualified_on ≤ p.created_at) := by
  obtain ⟨as0, tx, hae, hap⟩ := generate_assemblies_spec parts hne N2 s2
  have has : as0 = as_ := except_ok_fst hae h2
  subst has
  obtain ⟨ms0, ty, hme, hmp⟩ := generate_measurements_spec parts hne N3 s3
  have hms : ms0 = ms := except_ok_fst hme h3
  subst hms
  obtain ⟨rs0, tz, hse, hsp⟩ := generate_supplier_relationships_spec parts hne N4 s4
  have hrs : rs0 = rs := except_ok_fst hse h4
  subst hrs
  refine ⟨fun a ha => ?_, fun m hm => ?_, fun r hr => ?_⟩
  · obtain ⟨p, hp, hid, -, h, hh1, hh2, hts⟩ := hap a ha
    exact ⟨p, hp, hid, ⟨h, hh1, hh2, hts⟩, by omega⟩
  · obtain ⟨p, hp, hid, -, h, hh1, hh2, hts⟩ := hmp m hm
    exact ⟨p, hp, hid, h, hh1, hh2, hts⟩
  · obtain ⟨p, hp, hid, -, -, d, hd1, hd2, hq⟩ := hsp r hr
    exact ⟨p, hp, hid, ⟨d, hd1, hd2, hq⟩, by omega⟩

theorem C8_witness :
    (∀ a ∈ okListOf (generate_assemblies [wPart] 1 wSt), ∃ p ∈ [wPart],
      a.part_id = p.part_id ∧
      (∃ h : ℤ, 1 ≤ h ∧ h ≤ 500 ∧ a.timestamp = p.created_at + h * 3600) ∧
      p.created_at < a.timestamp) ∧
    (∀ m ∈ okListOf (generate_measurements [wPart] 1 wSt), ∃ p ∈ [wPart],
      m.part_id = p.part_id ∧
      ∃ h : ℤ, 2 ≤ h ∧ h ≤ 720 ∧ m.measured_at = p.created_at + h * 3600) ∧
    (∀ r ∈ okListOf (generate_supplier_relationships [wPart] 1 wSt), ∃ p ∈ [wPart],
      r.part_id = p.part_id ∧
      (∃ d : ℤ, 0 ≤ d ∧ d ≤ 60 ∧ r.qualified_on = p.created_at - d * 86400) ∧
      r.qualified_on ≤ p.created_at) :=
  C8_dependent_timestamps [wPart] (by simp) 1 1 1 wSt
    (okStateOf wSt (generate_assemblies [wPart] 1 wSt)) wSt
    (okStateOf wSt (generate_measurements [wPart] 1 wSt)) wSt
    (okStateOf wSt (generate_supplier_relationships [wPart] 1 wSt))
    (okListOf (generate_assemblies [wPart] 1 wSt))
    (okListOf (generate_measurements [wPart] 1 wSt))
    (okListOf (generate_supplier_relationships [wPart] 1 wSt))
    rfl rfl rfl

/-- C1 counterexample: two complete runs with the same seed streams and
the same counts, executed at wall-clock times one day apart, write
different bytes (the `created_at` column differs), so byte-identical
output given only the seed and counts is false. -/
theorem C1_counterexample_clock :
    ¬ (mainRun ⟨1, 0, 0, 0⟩ wSrc 31536000 = mainRun ⟨1, 0, 0, 0⟩ wSrc (31536000 + 86400)) := by
  with_unfolding_all decide

/-- C1 (amended): two complete runs with the same seed streams and counts
agree on the error outcome, on the final random state, and on every CSV
cell except each row's final timestamp column, which depends on the
wall-clock time `datetime.now()` observed by the run; runs that also share
the clock reading are identical because the output is a pure function of
seed, counts and clock. -/
theorem C1_same_seed_same_rows_up_to_timestamps (cfg : Config) (src : RandSource)
    (now1 now2 : ℤ) :
    (mainRun cfg src now1).2 = (mainRun cfg src now2).2 ∧
    (mainFiles cfg src now1).1.rand = (mainFiles cfg src now2).1.rand ∧
    ((mainFiles cfg src now1).1.files).map (fun f => (f.1, f.2.map List.dropLast)) =
      ((mainFiles cfg src now2).1.files).map (fun f => (f.1, f.2.map List.dropLast)) := by
  obtain ⟨he, hr, hf⟩ := mainFiles_clock_shift cfg src now2 now1
  refine ⟨?_, hr, hf⟩
  show (mainFiles cfg src now1).2 = (mainFiles cfg src now2).2
  exact he

end EngCsv
